import Mathlib

/-!
Shallow embedding of the OBSGameLauncher repository (files
`obs_game_recorder.py` and `debug_process_checker.py`) and proofs of the
behavioural claims about its game-detection routine and configuration CRUD.

Modelling conventions:
* Python strings are Lean `String`s; `str.lower()` is `pyLower` (ASCII case
  folding, which covers selectors and executable names); `needle in hay` on
  strings is `strIn` (contiguous substring search).
* A snapshot of OS state is a list of visible windows (title, owning pid)
  plus a process table (a sequence of (pid, executable-name) rows; the
  Python code folds it into a dict, so a later row with the same pid wins).
* Files are modelled at the JSON-value level: `json.dump`/`json.load` are
  the identity on JSON values, and a read either yields a value, fails to
  parse / raises (`LoadInput.unreadable`), or finds no file
  (`LoadInput.missing`).
* Functions that in Python mutate `games_config` in place are modelled as
  pure functions from the old games list to the new one.
-/

namespace OBSGameLauncher

/-- Boolean test that the first character list is an initial segment of the second. -/
def prefAux : List Char → List Char → Bool
  | [], _ => true
  | _ :: _, [] => false
  | a :: as, b :: bs => a == b && prefAux as bs

/-- Boolean contiguous-substring test on character lists. -/
def subAux (n : List Char) : List Char → Bool
  | [] => n.isEmpty
  | h :: t => prefAux n (h :: t) || subAux n t

/-- Model of Python's `needle in hay` on strings: `needle` occurs contiguously in `hay`. -/
def strIn (needle hay : String) : Bool := subAux needle.data hay.data

/-- Model of Python's `str.lower()` (ASCII case folding). -/
def pyLower (s : String) : String := String.mk (s.data.map Char.toLower)

/-- Model of Python's `str.strip()`: remove leading and trailing whitespace. -/
def pyStrip (s : String) : String :=
  String.mk (((s.data.dropWhile Char.isWhitespace).reverse.dropWhile Char.isWhitespace).reverse)

/-- Numeric value of a list of decimal digit characters. -/
def digitsVal (ds : List Char) : Int :=
  ds.foldl (fun a c => a * 10 + ((c.toNat : Int) - 48)) 0

/-- Model of Python's `int(s)` on a string: optional sign, then decimal digits,
surrounding whitespace ignored; `none` models the `ValueError` raised otherwise. -/
def pyParseInt (s : String) : Option Int :=
  match (pyStrip s).data with
  | [] => none
  | '-' :: ds => if ds ≠ [] ∧ ds.all Char.isDigit then some (-(digitsVal ds)) else none
  | '+' :: ds => if ds ≠ [] ∧ ds.all Char.isDigit then some (digitsVal ds) else none
  | ds => if ds.all Char.isDigit then some (digitsVal ds) else none

/-- A configured game entry: the four-field record created by the add operations. -/
structure Game where
  name : String
  selector : String
  icon_path : String
  enabled : Bool
deriving DecidableEq, Repr

/-- A visible top-level window as enumerated by `get_visible_windows`:
its title and the pid of the owning process. -/
structure Window where
  title : String
  pid : Nat
deriving DecidableEq, Repr

/-- One record of the list produced by `get_processes_detailed`. -/
structure ProcEntry where
  name : String
  pid : Nat
  window_title : String
deriving DecidableEq, Repr

/-- Lookup in the dict built by `get_process_list`: the table rows are written
into a dict keyed by pid (a later row with the same pid overwrites an earlier
one) with the executable name lowercased; `.get(pid, '')` returns `""` when
the pid is absent. -/
def procMapLookup (tbl : List (Nat × String)) (pid : Nat) : String :=
  match (tbl.filter (fun e => e.1 == pid)).getLast? with
  | some e => pyLower e.2
  | none => ""

/-- The `ProcEntry` that `get_processes_detailed` builds for a window. -/
def mkEntry (tbl : List (Nat × String)) (w : Window) : ProcEntry :=
  { name := procMapLookup tbl w.pid, pid := w.pid, window_title := w.title }

/-- Loop of `get_processes_detailed`: walk the windows, skip a window whose
pid was already seen, and record name, pid and window title for the rest. -/
def gpdAux (tbl : List (Nat × String)) : List Window → List Nat → List ProcEntry
  | [], _ => []
  | w :: ws, seen =>
    if w.pid ∈ seen then gpdAux tbl ws seen
    else mkEntry tbl w :: gpdAux tbl ws (w.pid :: seen)

/-- `get_processes_detailed` from `obs_game_recorder.py`: one entry per
distinct pid owning a visible window, holding that pid's first enumerated
window title and its (lowercased) executable name. -/
def get_processes_detailed (ws : List Window) (tbl : List (Nat × String)) : List ProcEntry :=
  gpdAux tbl ws []

/-- Per-entry test of `is_program_running`'s loop body: the lowercased target
occurs in the lowercased window title, or in the process name (which
`get_process_list` already lowercased). -/
def matchProc (t : String) (p : ProcEntry) : Bool :=
  strIn (pyLower t) (pyLower p.window_title) || strIn (pyLower t) p.name

/-- `is_program_running` from `obs_game_recorder.py`: empty target is rejected
up front; otherwise return the first entry whose title or name contains the
target, case-insensitively. -/
def is_program_running (t : String) (procs : List ProcEntry) : Bool × Option ProcEntry :=
  if t = "" then (false, none)
  else
    match procs.find? (matchProc t) with
    | some p => (true, some p)
    | none => (false, none)

/-- `check_any_game_running` from `obs_game_recorder.py`: scan the configured
games in list order, skip disabled entries and entries whose selector is
empty, and return the first game for which `is_program_running` succeeds,
together with the matched process. -/
def check_any_game_running : List Game → List ProcEntry → Option Game × Option ProcEntry
  | [], _ => (none, none)
  | g :: gs, procs =>
    if !g.enabled then check_any_game_running gs procs
    else if g.selector = "" then check_any_game_running gs procs
    else
      match is_program_running g.selector procs with
      | (true, p) => (some g, p)
      | (false, _) => check_any_game_running gs procs

/-- Duplicate-selector test used by the add and remove operations:
some existing entry's selector equals the given one after lowercasing. -/
def dupSel (gs : List Game) (sel : String) : Bool :=
  gs.any (fun g => pyLower g.selector == pyLower sel)

/-- JSON values, the contents of the configuration and state files.
Numbers are modelled as integers; no claim touches numeric fields. -/
inductive JVal where
  | jnull
  | jbool (b : Bool)
  | jnum (n : Int)
  | jstr (s : String)
  | jarr (xs : List JVal)
  | jobj (fields : List (String × JVal))

/-- Python equality between a JSON value and a string: true exactly for the
equal string (equality with a non-string JSON value is `False`). -/
def jvalEqStr (v : JVal) (s : String) : Bool :=
  match v with
  | .jstr t => t == s
  | _ => false

/-- Python's `key in v` on a parsed JSON value: key membership for a dict,
element equality for a list, substring for a string, and `none` models the
`TypeError` raised on the remaining types. -/
def pyIn (key : String) (v : JVal) : Option Bool :=
  match v with
  | .jobj fs => some (fs.any (fun e => e.1 == key))
  | .jarr xs => some (xs.any (fun x => jvalEqStr x key))
  | .jstr s => some (strIn key s)
  | _ => none

/-- Observation `games_config.get("games", [])` used throughout both files:
the value stored under `"games"` when the configuration is a dict holding
that key, and the empty array otherwise. -/
def getGames (v : JVal) : JVal :=
  match v with
  | .jobj fs =>
    match fs.find? (fun e => e.1 == "games") with
    | some e => e.2
    | none => .jarr []
  | _ => .jarr []

/-- Whether the value is a dict containing the key `"games"`. -/
def hasGamesKey (v : JVal) : Bool :=
  match v with
  | .jobj fs => fs.any (fun e => e.1 == "games")
  | _ => false

/-- Whether the value is a JSON object (a Python dict). -/
def isObj (v : JVal) : Bool :=
  match v with
  | .jobj _ => true
  | _ => false

/-- Key list of a JSON object. -/
def jKeys (v : JVal) : List String :=
  match v with
  | .jobj fs => fs.map Prod.fst
  | _ => []

/-- Field lookup in a JSON object. -/
def jGet (v : JVal) (k : String) : Option JVal :=
  match v with
  | .jobj fs => (fs.find? (fun e => e.1 == k)).map Prod.snd
  | _ => none

/-- Outcome of trying to read a file: the file is absent, reading or parsing
it raises, or it holds a JSON value. -/
inductive LoadInput where
  | missing
  | unreadable
  | content (v : JVal)

/-- The default configuration `{"games": []}`. -/
def defaultConfig : JVal := .jobj [("games", .jarr [])]

/-- JSON record written for a game entry. -/
def gameToJ (g : Game) : JVal :=
  .jobj [("name", .jstr g.name), ("selector", .jstr g.selector),
         ("icon_path", .jstr g.icon_path), ("enabled", .jbool g.enabled)]

/-- JSON configuration object holding a games list. -/
def configToJ (gs : List Game) : JVal := .jobj [("games", .jarr (gs.map gameToJ))]

namespace ObsGameRecorder

/-- `load_config` from `obs_game_recorder.py`. A missing file and any raised
exception yield `{"games": []}`. On parsed content the code runs
`if "games" not in games_config: games_config["games"] = []`: Python's `in`
on a non-dict checks list membership / substring (or raises `TypeError`,
which the surrounding `except` turns into the default), and the item
assignment on a non-dict also raises, so only a dict can gain the key. -/
def load_config (input : LoadInput) : JVal :=
  match input with
  | .missing => defaultConfig
  | .unreadable => defaultConfig
  | .content v =>
    match pyIn "games" v with
    | none => defaultConfig
    | some true => v
    | some false =>
      match v with
      | .jobj fs => .jobj (fs ++ [("games", .jarr [])])
      | _ => defaultConfig

/-- `save_config` from `obs_game_recorder.py`: `json.dump` writes the
configuration value; at the JSON-value level the written file content is the
configuration itself. -/
def save_config (cfg : JVal) : JVal := cfg

/-- `add_game` from `obs_game_recorder.py`, as a function of the games list.
Returns the (success, message) pair together with the new games list; the
`enabled` parameter defaults to `true` as in the Python signature. -/
def add_game (gs : List Game) (nm sel : String) (enabled : Bool := true) :
    Bool × String × List Game :=
  if dupSel gs sel then
    (false, "Game with this selector already exists", gs)
  else
    (true, "Game added successfully", gs ++ [{ name := nm, selector := sel,
                                               icon_path := "", enabled := enabled }])

/-- `remove_game` from `obs_game_recorder.py`, as a function of the games
list: keep exactly the entries whose lowercased selector differs from the
lowercased argument. (The icon-file deletion is a filesystem side effect
that does not touch the list.) -/
def remove_game (gs : List Game) (sel : String) : List Game :=
  gs.filter (fun g => !(pyLower g.selector == pyLower sel))

/-- `set_game_enabled` from `obs_game_recorder.py`: set the `enabled` field
of the first entry whose selector matches case-insensitively, returning the
new list and whether a match was found. -/
def set_game_enabled (gs : List Game) (sel : String) (b : Bool) : List Game × Bool :=
  match gs with
  | [] => ([], false)
  | g :: rest =>
    if pyLower g.selector == pyLower sel then ({ g with enabled := b } :: rest, true)
    else
      let r := set_game_enabled rest sel b
      (g :: r.1, r.2)

end ObsGameRecorder

namespace DebugProcessChecker

/-- `load_config` from `debug_process_checker.py`: return the parsed value,
and `{"games": []}` when the file is missing or reading/parsing raises. -/
def load_config (input : LoadInput) : JVal :=
  match input with
  | .content v => v
  | _ => defaultConfig

/-- `save_config` from `debug_process_checker.py`: `json.dump` writes the
given configuration value. -/
def save_config (cfg : JVal) : JVal := cfg

/-- Core of `add_game_interactive` from `debug_process_checker.py`, after the
prompts have produced a name and a selector: report failure and leave the
list unchanged when a case-insensitive duplicate selector exists, otherwise
append the new record. -/
def add_game_interactive (gs : List Game) (nm sel : String) : Bool × List Game :=
  if dupSel gs sel then (false, gs)
  else (true, gs ++ [{ name := nm, selector := sel, icon_path := "", enabled := true }])

/-- The `--add` branch of `__main__` in `debug_process_checker.py`: append a
new record unconditionally. -/
def add_game_cmdline (gs : List Game) (nm sel : String) : List Game :=
  gs ++ [{ name := nm, selector := sel, icon_path := "", enabled := true }]

/-- `remove_game_interactive` from `debug_process_checker.py` after a valid
menu choice: `games.pop(choice - 1)`, i.e. drop the entry at index `i`. -/
def remove_game_interactive (gs : List Game) (i : Nat) : List Game :=
  gs.eraseIdx i

/-- `toggle_game_interactive` from `debug_process_checker.py` after a valid
menu choice: negate the `enabled` field of the entry at index `i`. -/
def toggle_game_interactive (gs : List Game) (i : Nat) : List Game :=
  match gs[i]? with
  | some g => gs.set i { g with enabled := !g.enabled }
  | none => gs

/-- `is_watcher_running` from `debug_process_checker.py`. `pidFile` is the
PID file's content (or `none` when it is missing or unreadable); `openOk pid`
models whether `OpenProcess` yields a handle for that pid. -/
def is_watcher_running (pidFile : Option String) (openOk : Int → Bool) :
    Bool × Option Int :=
  match pidFile with
  | none => (false, none)
  | some s =>
    match pyParseInt s with
    | none => (false, none)
    | some pid => if openOk pid then (true, some pid) else (false, none)

/-- `get_watcher_state` from `debug_process_checker.py`: the stripped file
content, or `None` when reading raises. -/
def get_watcher_state (stateFile : Option String) : Option String :=
  stateFile.map pyStrip

end DebugProcessChecker

/-- Scan described by the spec sentence behind claim C2, transcribed from its
words: skip disabled entries and test each remaining entry's selector with a
case-insensitive substring match against the window titles and process names,
returning the first matching game with its matched process. -/
def checkSpecC2 : List Game → List ProcEntry → Option Game × Option ProcEntry
  | [], _ => (none, none)
  | g :: gs, procs =>
    if !g.enabled then checkSpecC2 gs procs
    else
      match procs.find? (matchProc g.selector) with
      | some p => (some g, some p)
      | none => checkSpecC2 gs procs

/-- Amended form of the C2 scan: additionally skip entries whose selector is
the empty string. -/
def checkSpecC2Amended : List Game → List ProcEntry → Option Game × Option ProcEntry
  | [], _ => (none, none)
  | g :: gs, procs =>
    if !g.enabled || g.selector == "" then checkSpecC2Amended gs procs
    else
      match procs.find? (matchProc g.selector) with
      | some p => (some g, some p)
      | none => checkSpecC2Amended gs procs

/-- Claim C8: an entry whose selector is the empty string is never detected:
`is_program_running` returns `(False, None)` for an empty target, and
`check_any_game_running` behaves as if entries with an empty selector were
absent from the list — even though the empty string is a substring of every
window title and process name. -/
theorem empty_selector_never_detected :
    (∀ procs : List ProcEntry, is_program_running "" procs = (false, none)) ∧
    (∀ (gs : List Game) (procs : List ProcEntry),
      check_any_game_running gs procs =
        check_any_game_running (gs.filter (fun g => !(g.selector == ""))) procs) ∧
    (∀ s : String, strIn "" s = true) := by
  refine ⟨fun procs => rfl, fun gs procs => ?_, fun s => ?_⟩
  · induction gs with
    | nil => rfl
    | cons g rest ih =>
      by_cases hsel : g.selector = ""
      · by_cases hen : g.enabled <;>
          simp [check_any_game_running, hsel, hen, ih, List.filter_cons]
      · have hf : (g :: rest).filter (fun g => !(g.selector == "")) =
            g :: rest.filter (fun g => !(g.selector == "")) := by
          simp [List.filter_cons, hsel]
        rw [hf]
        by_cases hen : g.enabled
        · rcases h : is_program_running g.selector procs with ⟨b, p⟩
          cases b
          · simp [check_any_game_running, hen, hsel, h, ih]
          · simp [check_any_game_running, hen, hsel, h]
        · simp [check_any_game_running, hen, ih]
  · show subAux [] s.data = true
    induction s.data with
    | nil => rfl
    | cons c t ih => simp [subAux, prefAux, ih]

/-- Claim C9: after `remove_game`, no entry whose lowercased selector equals
the lowercased argument remains (every match is removed, not only the first),
and when no entry matched the list is unchanged. -/
theorem remove_game_removes_all_matches :
    ∀ (gs : List Game) (sel : String),
      (∀ g ∈ ObsGameRecorder.remove_game gs sel, pyLower g.selector ≠ pyLower sel) ∧
      ((∀ g ∈ gs, pyLower g.selector ≠ pyLower sel) →
        ObsGameRecorder.remove_game gs sel = gs) := by
  intro gs sel
  constructor
  · intro g hg
    have := (List.mem_filter.mp hg).2
    simpa using this
  · intro h
    apply List.filter_eq_self.mpr
    intro g hg
    simpa using h g hg

/-- Witness for C9's second conjunct at a concrete non-matching list. -/
theorem remove_game_removes_all_matches_witness :
    ObsGameRecorder.remove_game [⟨"A", "a", "", true⟩] "b" = [⟨"A", "a", "", true⟩] :=
  (remove_game_removes_all_matches [⟨"A", "a", "", true⟩] "b").2 (by decide)

/-- Claim C3 counterexample: the `--add` command-line path performs no
duplicate-selector check — adding selector `"SEL"` next to an existing entry
with selector `"sel"` (a case-insensitive duplicate) changes the games list
instead of being rejected. -/
theorem add_cmdline_accepts_duplicate :
    DebugProcessChecker.add_game_cmdline [⟨"G", "sel", "", true⟩] "G2" "SEL" =
      [⟨"G", "sel", "", true⟩, ⟨"G2", "SEL", "", true⟩] ∧
    dupSel [⟨"G", "sel", "", true⟩] "SEL" = true ∧
    DebugProcessChecker.add_game_cmdline [⟨"G", "sel", "", true⟩] "G2" "SEL" ≠
      [⟨"G", "sel", "", true⟩] :=
  ⟨rfl, by decide, by decide⟩

/-- Claim C3 amended: `add_game` and the interactive add reject a
case-insensitive duplicate selector, reporting failure and leaving the games
list unchanged; the `--add` command-line path appends unconditionally, with
no duplicate check. -/
theorem add_duplicate_selector_handling :
    ∀ (gs : List Game) (nm sel : String) (e : Bool),
      dupSel gs sel = true →
        ObsGameRecorder.add_game gs nm sel e =
          (false, "Game with this selector already exists", gs) ∧
        DebugProcessChecker.add_game_interactive gs nm sel = (false, gs) ∧
        DebugProcessChecker.add_game_cmdline gs nm sel =
          gs ++ [⟨nm, sel, "", true⟩] := by
  intro gs nm sel e h
  refine ⟨?_, ?_, rfl⟩ <;>
    simp [ObsGameRecorder.add_game, DebugProcessChecker.add_game_interactive, h]

/-- Witness for C3's amended theorem at a concrete duplicate. -/
theorem add_duplicate_selector_handling_witness :
    ObsGameRecorder.add_game [⟨"G", "sel", "", true⟩] "G2" "SEL" true =
      (false, "Game with this selector already exists", [⟨"G", "sel", "", true⟩]) :=
  (add_duplicate_selector_handling [⟨"G", "sel", "", true⟩] "G2" "SEL" true (by decide)).1

/-- Claim C6: every entry created by an add operation is the record
`{name, selector, icon_path: "", enabled: True}` — `add_game`'s `enabled`
parameter defaults to `True`, the interactive add and the `--add` path set it
to `True` — its JSON form has exactly the four keys, and the persisted
configuration is a JSON object whose `"games"` array holds these records. -/
theorem add_creates_four_field_record :
    ∀ (gs : List Game) (nm sel : String),
      dupSel gs sel = false →
        ((ObsGameRecorder.add_game gs nm sel).2.2 = gs ++ [⟨nm, sel, "", true⟩] ∧
         (DebugProcessChecker.add_game_interactive gs nm sel).2 = gs ++ [⟨nm, sel, "", true⟩] ∧
         DebugProcessChecker.add_game_cmdline gs nm sel = gs ++ [⟨nm, sel, "", true⟩]) ∧
        (jKeys (gameToJ ⟨nm, sel, "", true⟩) = ["name", "selector", "icon_path", "enabled"] ∧
         jGet (gameToJ ⟨nm, sel, "", true⟩) "icon_path" = some (.jstr "") ∧
         jGet (gameToJ ⟨nm, sel, "", true⟩) "enabled" = some (.jbool true)) ∧
        (hasGamesKey (configToJ (gs ++ [⟨nm, sel, "", true⟩])) = true ∧
         getGames (configToJ (gs ++ [⟨nm, sel, "", true⟩])) =
           JVal.jarr ((gs ++ [(⟨nm, sel, "", true⟩ : Game)]).map gameToJ)) := by
  intro gs nm sel h
  refine ⟨⟨?_, ?_, rfl⟩, ⟨rfl, rfl, rfl⟩, rfl, rfl⟩ <;>
    simp [ObsGameRecorder.add_game, DebugProcessChecker.add_game_interactive, h]

/-- Witness for C6 at a concrete fresh selector, exercising the default
`enabled` argument. -/
theorem add_creates_four_field_record_witness :
    (ObsGameRecorder.add_game [] "Doom" "doom").2.2 = [⟨"Doom", "doom", "", true⟩] :=
  ((add_creates_four_field_record [] "Doom" "doom" (by decide)).1).1

/-- Claim C7: read failures are reduced to defaults instead of raising —
the debug `load_config` yields `{"games": []}` when the config file is
missing or unreadable, `is_watcher_running` yields `(False, None)` when the
PID file is missing or its content is not an integer, and
`get_watcher_state` yields `None` when the state file is unreadable. (All
the modelled functions are total, so no failure escapes to the caller.) -/
theorem failures_reduced_to_defaults :
    (DebugProcessChecker.load_config .missing = defaultConfig ∧
     DebugProcessChecker.load_config .unreadable = defaultConfig ∧
     getGames defaultConfig = .jarr []) ∧
    (∀ ok : Int → Bool, DebugProcessChecker.is_watcher_running none ok = (false, none)) ∧
    (∀ (s : String) (ok : Int → Bool), pyParseInt s = none →
      DebugProcessChecker.is_watcher_running (some s) ok = (false, none)) ∧
    DebugProcessChecker.get_watcher_state none = none := by
  refine ⟨⟨rfl, rfl, rfl⟩, fun ok => rfl, fun s ok h => ?_, rfl⟩
  simp [DebugProcessChecker.is_watcher_running, h]

/-- Witness for C7 at a concrete non-numeric PID file content. -/
theorem failures_reduced_to_defaults_witness :
    DebugProcessChecker.is_watcher_running (some "not a pid") (fun _ => true) = (false, none) :=
  failures_reduced_to_defaults.2.2.1 "not a pid" (fun _ => true) (by decide)

/-- Claim C5: writing a configuration with `save_config` and loading it back
yields an equal configuration — the identity on the games list for the
recorder module (whose `load_config` may add a missing `"games"` key, which
does not change the observed games list), and the identity on the whole
value for the debug module. JSON text serialisation (`json.dump` /
`json.load`, Python standard library) is modelled as the identity on JSON
values. -/
theorem save_load_roundtrip :
    ∀ cfg : JVal,
      getGames (ObsGameRecorder.load_config (.content (ObsGameRecorder.save_config cfg))) =
        getGames cfg ∧
      DebugProcessChecker.load_config (.content (DebugProcessChecker.save_config cfg)) = cfg := by
  intro cfg
  refine ⟨?_, rfl⟩
  cases cfg with
  | jobj fs =>
    by_cases h : fs.any (fun e => e.1 == "games")
    · simp [ObsGameRecorder.load_config, ObsGameRecorder.save_config, pyIn, h]
    · have h' : fs.any (fun e => e.1 == "games") = false := Bool.eq_false_iff.mpr h
      have hf : fs.find? (fun e => e.1 == "games") = none :=
        List.find?_eq_none.mpr (fun x hx => by
          have := List.any_eq_false.mp h' x hx
          simpa using this)
      simp [ObsGameRecorder.load_config, ObsGameRecorder.save_config, pyIn, h', getGames,
            List.find?_append, hf]
  | jarr xs =>
    by_cases h : xs.any (fun x => jvalEqStr x "games") <;>
      simp [ObsGameRecorder.load_config, ObsGameRecorder.save_config, pyIn, h, getGames,
            defaultConfig]
  | jstr s =>
    by_cases h : strIn "games" s <;>
      simp [ObsGameRecorder.load_config, ObsGameRecorder.save_config, pyIn, h, getGames,
            defaultConfig]
  | jnull => rfl
  | jbool b => rfl
  | jnum n => rfl

/-- Claim C10 counterexample: a config file parsing to the JSON array
`["games"]` passes the `"games" not in games_config` membership check
(Python's `in` on a list tests element equality), so `load_config` returns
the array itself — not a mapping containing the key `"games"`. -/
theorem load_config_nonmapping_counterexample :
    ObsGameRecorder.load_config (.content (.jarr [.jstr "games"])) = .jarr [.jstr "games"] ∧
    hasGamesKey (.jarr [.jstr "games"]) = false ∧
    isObj (.jarr [.jstr "games"]) = false :=
  ⟨rfl, rfl, rfl⟩

/-- Claim C10 amended: `load_config` returns a mapping containing the key
`"games"` whenever the file is missing or unreadable or the parsed value is a
mapping; for a parsed non-mapping it returns `{"games": []}` unless Python's
`in` finds `"games"` in the value (an array with a `"games"` element or a
string containing `"games"`), in which case the non-mapping value is
returned unchanged. -/
theorem load_config_games_key :
    ∀ v : JVal,
      (ObsGameRecorder.load_config .missing = defaultConfig ∧
       ObsGameRecorder.load_config .unreadable = defaultConfig ∧
       hasGamesKey defaultConfig = true ∧ getGames defaultConfig = .jarr []) ∧
      (isObj v = true → hasGamesKey (ObsGameRecorder.load_config (.content v)) = true) ∧
      (isObj v = false → pyIn "games" v = some true →
        ObsGameRecorder.load_config (.content v) = v) ∧
      (isObj v = false → pyIn "games" v ≠ some true →
        ObsGameRecorder.load_config (.content v) = defaultConfig) := by
  intro v
  refine ⟨⟨rfl, rfl, rfl, rfl⟩, ?_, ?_, ?_⟩
  · intro hobj
    cases v with
    | jobj fs =>
      by_cases h : fs.any (fun e => e.1 == "games")
      · simp [ObsGameRecorder.load_config, pyIn, h, hasGamesKey]
      · have h' : fs.any (fun e => e.1 == "games") = false := Bool.eq_false_iff.mpr h
        simp [ObsGameRecorder.load_config, pyIn, h', hasGamesKey, List.any_append]
    | jnull => simp [isObj] at hobj
    | jbool b => simp [isObj] at hobj
    | jnum n => simp [isObj] at hobj
    | jstr s => simp [isObj] at hobj
    | jarr xs => simp [isObj] at hobj
  · intro hobj hin
    cases v with
    | jobj fs => simp [isObj] at hobj
    | jarr xs =>
      have h : (xs.any (fun x => jvalEqStr x "games")) = true := by simpa [pyIn] using hin
      simp [ObsGameRecorder.load_config, pyIn, h]
    | jstr s =>
      have h : strIn "games" s = true := by simpa [pyIn] using hin
      simp [ObsGameRecorder.load_config, pyIn, h]
    | jnull => simp [pyIn] at hin
    | jbool b => simp [pyIn] at hin
    | jnum n => simp [pyIn] at hin
  · intro hobj hnin
    cases v with
    | jobj fs => simp [isObj] at hobj
    | jarr xs =>
      have h : (xs.any (fun x => jvalEqStr x "games")) = false := by
        by_cases h : xs.any (fun x => jvalEqStr x "games")
        · exact absurd (by simp [pyIn, h]) hnin
        · exact Bool.eq_false_iff.mpr h
      simp [ObsGameRecorder.load_config, pyIn, h]
    | jstr s =>
      have h : strIn "games" s = false := by
        by_cases h : strIn "games" s
        · exact absurd (by simp [pyIn, h]) hnin
        · exact Bool.eq_false_iff.mpr h
      simp [ObsGameRecorder.load_config, pyIn, h]
    | jnull => simp [ObsGameRecorder.load_config, pyIn]
    | jbool b => simp [ObsGameRecorder.load_config, pyIn]
    | jnum n => simp [ObsGameRecorder.load_config, pyIn]

/-- Witness for C10's amended theorem at a concrete empty mapping. -/
theorem load_config_games_key_witness :
    hasGamesKey (ObsGameRecorder.load_config (.content (.jobj []))) = true :=
  (load_config_games_key (.jobj [])).2.1 rfl

/-- Claim C2 counterexample: an enabled entry whose selector is the empty
string is skipped by `check_any_game_running`, while the spec-described scan
(case-insensitive substring test of each enabled entry's selector) would
match it against any process, since the empty string is a substring of every
title. -/
theorem check_any_game_running_deviates_from_spec_scan :
    check_any_game_running [⟨"G", "", "", true⟩] [⟨"x.exe", 1, "Title"⟩] = (none, none) ∧
    checkSpecC2 [⟨"G", "", "", true⟩] [⟨"x.exe", 1, "Title"⟩] =
      (some ⟨"G", "", "", true⟩, some ⟨"x.exe", 1, "Title"⟩) ∧
    check_any_game_running [⟨"G", "", "", true⟩] [⟨"x.exe", 1, "Title"⟩] ≠
      checkSpecC2 [⟨"G", "", "", true⟩] [⟨"x.exe", 1, "Title"⟩] := by
  refine ⟨rfl, by decide, by decide⟩

/-- Claim C2 amended: `check_any_game_running` is exactly the linear scan
over the configured entries in list order that skips disabled entries and
entries with an empty selector, tests each remaining selector by
case-insensitive substring match against window titles and process names,
and returns the first matching game with its matched process, or
`(None, None)` when nothing matches. -/
theorem check_any_game_running_eq_spec_scan :
    ∀ (gs : List Game) (procs : List ProcEntry),
      check_any_game_running gs procs = checkSpecC2Amended gs procs := by
  intro gs procs
  induction gs with
  | nil => rfl
  | cons g rest ih =>
    by_cases hen : g.enabled
    · by_cases hsel : g.selector = ""
      · simp [check_any_game_running, checkSpecC2Amended, hen, hsel, ih]
      · have hb : (!g.enabled || g.selector == "") = false := by simp [hen, hsel]
        rcases hfind : procs.find? (matchProc g.selector) with _ | p
        · simp [check_any_game_running, checkSpecC2Amended, hen, hsel, hb,
                is_program_running, hfind, ih]
        · simp [check_any_game_running, checkSpecC2Amended, hen, hsel, hb,
                is_program_running, hfind]
    · simp [check_any_game_running, checkSpecC2Amended, hen, ih]

/-- Entries other than the first case-insensitive selector match keep their
position and value under `set_game_enabled`. -/
theorem set_game_enabled_frame (sel : String) (b : Bool) :
    ∀ (gs : List Game) (j : Nat),
      j ≠ gs.findIdx (fun g => pyLower g.selector == pyLower sel) →
      (ObsGameRecorder.set_game_enabled gs sel b).1[j]? = gs[j]? := by
  intro gs
  induction gs with
  | nil => intro j hj; rfl
  | cons g rest ih =>
    intro j hj
    rw [List.findIdx_cons] at hj
    by_cases hm : (pyLower g.selector == pyLower sel) = true
    · simp only [hm, cond_true] at hj
      obtain ⟨k, rfl⟩ := Nat.exists_eq_succ_of_ne_zero hj
      simp [ObsGameRecorder.set_game_enabled, hm]
    · simp only [Bool.eq_false_iff.mpr hm, cond_false] at hj
      cases j with
      | zero => simp [ObsGameRecorder.set_game_enabled, hm]
      | succ k =>
        have hk : k ≠ rest.findIdx (fun g => pyLower g.selector == pyLower sel) := by
          intro hc
          exact hj (by rw [hc])
        have := ih k hk
        simp [ObsGameRecorder.set_game_enabled, hm, this]

/-- Claim C4: toggling an entry's enabled flag (`set_game_enabled`,
`toggle_game_interactive`) and removing a game (`remove_game`,
`remove_game_interactive`) leave every other entry of the games list
unchanged, both in field values and in relative position. -/
theorem mutation_frame :
    ∀ (gs : List Game) (sel : String) (b : Bool) (i : Nat),
      (∀ j, j ≠ gs.findIdx (fun g => pyLower g.selector == pyLower sel) →
        (ObsGameRecorder.set_game_enabled gs sel b).1[j]? = gs[j]?) ∧
      List.Sublist (ObsGameRecorder.remove_game gs sel) gs ∧
      (∀ g ∈ gs, pyLower g.selector ≠ pyLower sel → g ∈ ObsGameRecorder.remove_game gs sel) ∧
      (∀ j, j ≠ i → (DebugProcessChecker.toggle_game_interactive gs i)[j]? = gs[j]?) ∧
      (∀ j, j < i → (DebugProcessChecker.remove_game_interactive gs i)[j]? = gs[j]?) ∧
      (∀ j, i ≤ j → (DebugProcessChecker.remove_game_interactive gs i)[j]? = gs[j + 1]?) := by
  intro gs sel b i
  refine ⟨fun j hj => set_game_enabled_frame sel b gs j hj, List.filter_sublist gs,
    ?_, ?_, ?_, ?_⟩
  · intro g hg hne
    exact List.mem_filter.mpr ⟨hg, by simpa using hne⟩
  · intro j hj
    unfold DebugProcessChecker.toggle_game_interactive
    cases hgi : gs[i]? with
    | none => rfl
    | some g => exact List.getElem?_set_ne (Ne.symm hj)
  · intro j hj
    unfold DebugProcessChecker.remove_game_interactive
    rw [List.getElem?_eraseIdx, if_pos hj]
  · intro j hj
    unfold DebugProcessChecker.remove_game_interactive
    rw [List.getElem?_eraseIdx, if_neg (by omega)]

/-- Detection succeeds exactly when some entry of the scanned list matches. -/
theorem running_iff_exists_match (t : String) (procs : List ProcEntry) (h : t ≠ "") :
    (is_program_running t procs).1 = true ↔ ∃ p ∈ procs, matchProc t p = true := by
  unfold is_program_running
  rw [if_neg h]
  cases hf : procs.find? (matchProc t) with
  | none =>
    constructor
    · intro hc
      simp at hc
    · rintro ⟨p, hp, hm⟩
      exact absurd hm (by simpa using List.find?_eq_none.mp hf p hp)
  | some p =>
    exact iff_of_true rfl ⟨p, List.mem_of_find?_eq_some hf, List.find?_some hf⟩

/-- Unfolding of the per-window entry's match condition. -/
theorem matchProc_mkEntry (t : String) (tbl : List (Nat × String)) (w : Window) :
    matchProc t (mkEntry tbl w) =
      (strIn (pyLower t) (pyLower w.title) || strIn (pyLower t) (procMapLookup tbl w.pid)) := rfl

/-- Characterisation of a match among the entries built by the
`get_processes_detailed` loop, for any set of already-seen pids: some window
whose pid is unseen has a matching executable name, or some window that is
the first of its pid (among the unseen) has a matching title. -/
theorem gpdAux_match_iff (tbl : List (Nat × String)) (t : String) :
    ∀ (ws : List Window) (seen : List Nat),
      (∃ p ∈ gpdAux tbl ws seen, matchProc t p = true) ↔
        ((∃ w ∈ ws, w.pid ∉ seen ∧ strIn (pyLower t) (procMapLookup tbl w.pid) = true) ∨
         (∃ pre w post, ws = pre ++ w :: post ∧ w.pid ∉ seen ∧
            (∀ u ∈ pre, u.pid ≠ w.pid) ∧ strIn (pyLower t) (pyLower w.title) = true)) := by
  intro ws
  induction ws with
  | nil =>
    intro seen
    constructor
    · rintro ⟨p, hp, -⟩
      exact absurd hp (List.not_mem_nil p)
    · rintro (⟨w, hw, -, -⟩ | ⟨pre, w, post, heq, -, -, -⟩)
      · exact absurd hw (List.not_mem_nil w)
      · exact absurd heq (by simp)
  | cons w0 ws ih =>
    intro seen
    by_cases hmem : w0.pid ∈ seen
    · rw [show gpdAux tbl (w0 :: ws) seen = gpdAux tbl ws seen from by simp [gpdAux, hmem]]
      rw [ih seen]
      constructor
      · rintro (⟨w, hw, hws, hm⟩ | ⟨pre, w, post, heq, hws, hpre, hm⟩)
        · exact Or.inl ⟨w, List.mem_cons_of_mem _ hw, hws, hm⟩
        · refine Or.inr ⟨w0 :: pre, w, post, by rw [heq, List.cons_append], hws, ?_, hm⟩
          intro u hu
          rcases List.mem_cons.mp hu with rfl | hu'
          · intro hc
            exact hws (hc ▸ hmem)
          · exact hpre u hu'
      · rintro (⟨w, hw, hws, hm⟩ | ⟨pre, w, post, heq, hws, hpre, hm⟩)
        · rcases List.mem_cons.mp hw with rfl | hw'
          · exact absurd hmem hws
          · exact Or.inl ⟨w, hw', hws, hm⟩
        · cases pre with
          | nil =>
            simp only [List.nil_append] at heq
            injection heq with h1 h2
            exact absurd (h1 ▸ hmem) hws
          | cons u pre' =>
            simp only [List.cons_append] at heq
            injection heq with h1 h2
            exact Or.inr ⟨pre', w, post, h2, hws,
              fun v hv => hpre v (List.mem_cons_of_mem _ hv), hm⟩
    · rw [show gpdAux tbl (w0 :: ws) seen = mkEntry tbl w0 :: gpdAux tbl ws (w0.pid :: seen)
        from by simp [gpdAux, hmem]]
      constructor
      · rintro ⟨p, hp, hm⟩
        rcases List.mem_cons.mp hp with rfl | hp'
        · rw [matchProc_mkEntry, Bool.or_eq_true] at hm
          rcases hm with ht | hn
          · exact Or.inr ⟨[], w0, ws, rfl, hmem, by simp, ht⟩
          · exact Or.inl ⟨w0, List.mem_cons_self w0 ws, hmem, hn⟩
        · rcases (ih (w0.pid :: seen)).mp ⟨p, hp', hm⟩ with
            ⟨w, hw, hws, hmm⟩ | ⟨pre, w, post, heq, hws, hpre, hmm⟩
          · have h1 : w.pid ∉ seen := fun hc => hws (List.mem_cons_of_mem _ hc)
            exact Or.inl ⟨w, List.mem_cons_of_mem _ hw, h1, hmm⟩
          · have h1 : w.pid ∉ seen := fun hc => hws (List.mem_cons_of_mem _ hc)
            have h2 : w0.pid ≠ w.pid := by
              intro hc
              exact hws (by rw [← hc]; exact List.mem_cons_self _ _)
            refine Or.inr ⟨w0 :: pre, w, post, by rw [heq, List.cons_append], h1, ?_, hmm⟩
            intro u hu
            rcases List.mem_cons.mp hu with rfl | hu'
            · exact h2
            · exact hpre u hu'
      · rintro (⟨w, hw, hws, hmm⟩ | ⟨pre, w, post, heq, hws, hpre, hmm⟩)
        · rcases List.mem_cons.mp hw with rfl | hw'
          · refine ⟨mkEntry tbl w, List.mem_cons_self _ _, ?_⟩
            rw [matchProc_mkEntry, Bool.or_eq_true]
            exact Or.inr hmm
          · by_cases hpid : w.pid = w0.pid
            · refine ⟨mkEntry tbl w0, List.mem_cons_self _ _, ?_⟩
              rw [matchProc_mkEntry, Bool.or_eq_true]
              exact Or.inr (hpid ▸ hmm)
            · have hns : w.pid ∉ w0.pid :: seen := by
                intro hc
                rcases List.mem_cons.mp hc with h | h
                · exact hpid h
                · exact hws h
              obtain ⟨p, hp, hm⟩ := (ih (w0.pid :: seen)).mpr (Or.inl ⟨w, hw', hns, hmm⟩)
              exact ⟨p, List.mem_cons_of_mem _ hp, hm⟩
        · cases pre with
          | nil =>
            simp only [List.nil_append] at heq
            injection heq with h1 h2
            subst h1
            refine ⟨mkEntry tbl w0, List.mem_cons_self _ _, ?_⟩
            rw [matchProc_mkEntry, Bool.or_eq_true]
            exact Or.inl hmm
          | cons u pre' =>
            simp only [List.cons_append] at heq
            injection heq with h1 h2
            have hns : w.pid ∉ w0.pid :: seen := by
              intro hc
              rcases List.mem_cons.mp hc with h | h
              · exact (hpre u (List.mem_cons_self _ _)) (by rw [← h1, ← h])
              · exact hws h
            obtain ⟨p, hp, hm⟩ := (ih (w0.pid :: seen)).mpr
              (Or.inr ⟨pre', w, post, h2, hns,
                fun v hv => hpre v (List.mem_cons_of_mem _ hv), hmm⟩)
            exact ⟨p, List.mem_cons_of_mem _ hp, hm⟩

/-- Claim C1 counterexample: with no visible windows and a process
`Game.exe` in the process table, the selector "game" is a case-insensitive
substring of a running executable name, yet detection reports not running —
the detection pipeline only examines processes that own a visible window. -/
theorem detection_misses_windowless_process :
    (is_program_running "game" (get_processes_detailed [] [(1, "Game.exe")])).1 = false ∧
    strIn (pyLower "game") (pyLower "Game.exe") = true ∧
    procMapLookup [(1, "Game.exe")] 1 = "game.exe" :=
  ⟨rfl, by decide, by decide⟩

/-- Claim C1 amended: for a nonempty selector, detection over a snapshot of
visible windows and the process table succeeds iff the lowercased selector
occurs in the lowercased executable name of some process owning a visible
window, or in the lowercased title of a window that is the first enumerated
window of its process. Processes without visible windows are never examined,
further windows of an already-seen process are ignored, and an empty
selector is rejected up front. -/
theorem is_program_running_iff :
    ∀ (ws : List Window) (tbl : List (Nat × String)) (t : String), t ≠ "" →
      ((is_program_running t (get_processes_detailed ws tbl)).1 = true ↔
        ((∃ w ∈ ws, strIn (pyLower t) (procMapLookup tbl w.pid) = true) ∨
         (∃ pre w post, ws = pre ++ w :: post ∧ (∀ u ∈ pre, u.pid ≠ w.pid) ∧
            strIn (pyLower t) (pyLower w.title) = true))) := by
  intro ws tbl t ht
  rw [running_iff_exists_match t _ ht]
  rw [get_processes_detailed, gpdAux_match_iff]
  constructor
  · rintro (⟨w, hw, -, hm⟩ | ⟨pre, w, post, heq, -, hpre, hm⟩)
    · exact Or.inl ⟨w, hw, hm⟩
    · exact Or.inr ⟨pre, w, post, heq, hpre, hm⟩
  · rintro (⟨w, hw, hm⟩ | ⟨pre, w, post, heq, hpre, hm⟩)
    · exact Or.inl ⟨w, hw, List.not_mem_nil _, hm⟩
    · exact Or.inr ⟨pre, w, post, heq, List.not_mem_nil _, hpre, hm⟩

/-- Witness for C1's amended theorem at a concrete window snapshot. -/
theorem is_program_running_iff_witness :
    (is_program_running "half"
        (get_processes_detailed [⟨"Half-Life", 7⟩] [(7, "hl2.exe")])).1 = true :=
  (is_program_running_iff [⟨"Half-Life", 7⟩] [(7, "hl2.exe")] "half" (by decide)).mpr
    (Or.inr ⟨[], ⟨"Half-Life", 7⟩, [], rfl, by simp, by decide⟩)

/-- Witness for C4 at a concrete two-entry list: setting the flag of the
entry with selector "a" leaves the entry at index 1 untouched. -/
theorem mutation_frame_witness :
    (ObsGameRecorder.set_game_enabled [⟨"A", "a", "", true⟩, ⟨"B", "b", "", true⟩]
        "a" false).1[1]? = some ⟨"B", "b", "", true⟩ :=
  ((mutation_frame [⟨"A", "a", "", true⟩, ⟨"B", "b", "", true⟩] "a" false 0).1
      1 (by decide)).trans rfl

end OBSGameLauncher
